import Mathlib

/-!
Shallow embedding of the copilotkit-langgraph-history hydration engine:
the message transformer (utils/message-transformer.ts), the stream chunk
processor (utils/stream-processor.ts) and the connect orchestration of
HistoryHydratingAgentRunner (runner/history-hydrating-runner.ts).

Opaque JavaScript values (JSON payloads, state records) are modelled as
strings carrying their serialized form; JavaScript string truthiness is
modelled explicitly (a present, non-empty string is truthy).
-/

namespace LGH

/-- JavaScript truthiness of an optional string: present and non-empty. -/
def jsTruthy : Option String → Bool
  | some s => s ≠ ""
  | none => false

/-- JavaScript a-or-b on optional strings: keeps a when truthy, else b. -/
def jsOrO (a b : Option String) : Option String :=
  if jsTruthy a then a else b

/-- JavaScript a-or-fallback yielding a plain string. -/
def jsOrS (a : Option String) (fb : String) : String :=
  if jsTruthy a then a.getD "" else fb

/-! ## Message transformer (utils/message-transformer.ts) -/

/-- One content block of a LangGraph message content array. -/
structure ContentBlock where
  type : String
  text : Option String
deriving DecidableEq, Repr

/-- LangGraph message content: a plain string or an array of blocks. -/
inductive MsgContent where
  | str (s : String)
  | blocks (l : List ContentBlock)
deriving DecidableEq, Repr

/-- A tool call attached to an ai message; args carries the JSON text of
the structured arguments record. -/
structure MsgToolCall where
  id : String
  name : String
  args : String
deriving DecidableEq, Repr

/-- LangGraph message from thread state (runner/types.ts LangGraphMessage). -/
structure LangGraphMessage where
  id : String
  type : String
  content : MsgContent
  tool_calls : Option (List MsgToolCall) := none
  tool_call_id : Option String := none
deriving DecidableEq, Repr

/-- Transformed tool call in CopilotKit format. -/
structure TransformedToolCall where
  id : String
  name : String
  arguments : String
deriving DecidableEq, Repr

/-- Transformed message in CopilotKit format (TransformedMessage). -/
structure TransformedMessage where
  id : String
  role : String
  content : String
  toolCalls : Option (List TransformedToolCall) := none
  toolCallId : Option String := none
deriving DecidableEq, Repr

/-- extractContent: string passes through; an array keeps the text of
blocks of type text with truthy text, drops empties, joins with newline. -/
def extractContent : MsgContent → String
  | .str s => s
  | .blocks l =>
      String.intercalate "\n"
        ((l.map fun b =>
            if b.type = "text" ∧ jsTruthy b.text then b.text.getD "" else "").filter
          fun t => t.length > 0)

/-- Per-message transformation inside transformMessages: the switch on
msg.type; unknown types yield none. -/
def transformMessage (msg : LangGraphMessage) : Option TransformedMessage :=
  if msg.type = "human" then
    some { id := msg.id, role := "user", content := extractContent msg.content }
  else if msg.type = "ai" then
    some { id := msg.id, role := "assistant", content := extractContent msg.content,
           toolCalls := msg.tool_calls.map (List.map fun tc =>
             { id := tc.id, name := tc.name, arguments := tc.args }) }
  else if msg.type = "system" then
    some { id := msg.id, role := "system", content := extractContent msg.content }
  else if msg.type = "tool" then
    some { id := msg.id, role := "tool", content := extractContent msg.content,
           toolCallId := msg.tool_call_id }
  else none

/-- transformMessages: transforms each message, skipping the ones that do
not transform (unknown type). -/
def transformMessages (messages : List LangGraphMessage) : List TransformedMessage :=
  messages.filterMap transformMessage

/-! ## Stream processor (utils/stream-processor.ts) -/

/-- PredictStateTool (runner/types.ts); only the tool field is consulted. -/
structure PredictStateTool where
  tool : String
  state_key : String
  tool_argument : String
deriving DecidableEq, Repr

/-- The chunk metadata map restricted to the keys the processor reads:
copilotkit:emit-messages, copilotkit:emit-tool-calls and
copilotkit:emit-intermediate-state. A none field models an absent key. -/
structure Metadata where
  emitMessages : Option Bool := none
  emitToolCalls : Option Bool := none
  emitIntermediateState : Option (List PredictStateTool) := none
deriving DecidableEq, Repr

/-- The content field of data.chunk in an on_chat_model_stream event:
either a string or an array (whose delta renders as the empty string). -/
inductive ChunkContent where
  | str (s : String)
  | arr
deriving DecidableEq, Repr

/-- JavaScript truthiness of data.chunk.content: absent and the empty
string are falsy; any array is truthy. -/
def contentTruthy : Option ChunkContent → Bool
  | some (.str s) => s ≠ ""
  | some .arr => true
  | none => false

/-- The delta taken from data.chunk.content: the string itself when it is
a string, else the empty string. -/
def deltaOf : Option ChunkContent → String
  | some (.str s) => s
  | _ => ""

/-- The payload of an events category chunk (EventsStreamEvent data):
event and name are the inner discriminator and name, run_id the nested
run id, chunkContent models data.chunk.content, toolCallChunkName models
data.chunk.tool_call_chunks[0].name, input models data.input (present
means truthy, carrying its JSON text), rawData the JSON text of data. -/
structure EventsData where
  event : String
  name : String
  run_id : Option String := none
  chunkContent : Option ChunkContent := none
  toolCallChunkName : Option String := none
  input : Option String := none
  rawData : String := ""
deriving DecidableEq, Repr

/-- The value field of a custom chunk, viewed through the casts the
handlers apply: message_id and message for manual message emission, id,
name and args for manual tool call emission (args as JSON text), record
as the value seen as a state record. -/
structure CustomValue where
  message_id : Option String := none
  message : Option String := none
  id : Option String := none
  name : Option String := none
  args : Option String := none
  record : String := ""
deriving DecidableEq, Repr

/-- The payload of a custom chunk; raw is the JSON text of the payload. -/
structure CustomData where
  name : Option String := none
  event : Option String := none
  value : Option CustomValue := none
  raw : String := ""
deriving DecidableEq, Repr

/-- A stream chunk, discriminated by its outer event category, each
variant carrying the data cast the processor applies plus the metadata
map. The other variant covers unrecognized categories. -/
inductive StreamChunk where
  | metadataC (run_id : Option String) (md : Metadata)
  | eventsC (d : EventsData) (md : Metadata)
  | updatesC (payload : String) (md : Metadata)
  | valuesC (payload : String) (md : Metadata)
  | customC (d : CustomData) (md : Metadata)
  | errorC (raw : String) (md : Metadata)
  | otherC (md : Metadata)
deriving DecidableEq, Repr

/-- UI-facing events (BaseEvent projections). The custom constructor
covers the CUSTOM events with a string value; predictState is the CUSTOM
PredictState event whose value is the predict-state descriptor list. -/
inductive UIEvent where
  | runStarted (runId : String)
  | runFinished (runId : String)
  | messagesSnapshot (runId : String) (messages : List TransformedMessage)
  | stateSnapshot (snapshot : Option String)
  | textMessageStart (messageId : String)
  | textMessageContent (messageId : String) (delta : String)
  | textMessageEnd (messageId : String)
  | toolCallStart (toolCallId : String) (toolCallName : String) (parentMessageId : String)
  | toolCallArgs (toolCallId : String) (delta : String)
  | toolCallEnd (toolCallId : String)
  | custom (name : String) (value : String)
  | predictState (tools : List PredictStateTool)
deriving DecidableEq, Repr

/-- The mutable part of the StreamProcessorContext threaded through
processStreamChunk: the current run id, the optional started sets
(modelled as insertion-ordered lists) and the manually emitted state. -/
structure ProcState where
  runId : String
  startedMessages : Option (List String) := none
  startedToolCalls : Option (List String) := none
  manuallyEmittedState : Option String := none
deriving DecidableEq, Repr

/-- Whether metadata marks this on_chat_model_stream chunk as a
predict-state tool call (emitIntermediateState lists a tool whose name
equals the first tool_call_chunk name). -/
def toolCallUsedToPredictState (d : EventsData) (md : Metadata) : Bool :=
  match md.emitIntermediateState with
  | none => false
  | some l => l.any fun t => d.toolCallChunkName = some t.tool

/-- The specialized handling of the events category branch of
processStreamChunk: the inner dispatch on eventsData.event. The third
component records whether a source break statement fired (the
PredictState diversion and the emit flag suppressions), which in the
source skips the trailing generic pass-through emission. -/
def processEventsCore (d : EventsData) (md : Metadata) (st : ProcState) :
    List UIEvent × ProcState × Bool :=
  if (d.event == "on_chat_model_stream") && toolCallUsedToPredictState d md then
    ([UIEvent.predictState (md.emitIntermediateState.getD [])], st, true)
  else if d.event = "on_chat_model_stream" then
    if contentTruthy d.chunkContent then
      if md.emitMessages = some false then ([], st, true)
      else
        let messageId := jsOrS d.run_id st.runId
        let delta := deltaOf d.chunkContent
        match st.startedMessages with
        | some l =>
            if messageId ∈ l then
              ([UIEvent.textMessageContent messageId delta], st, false)
            else
              ([UIEvent.textMessageStart messageId,
                UIEvent.textMessageContent messageId delta],
               { st with startedMessages := some (l ++ [messageId]) }, false)
        | none => ([UIEvent.textMessageContent messageId delta], st, false)
    else ([], st, false)
  else if d.event = "on_chat_model_start" then
    if md.emitMessages = some false then ([], st, true)
    else
      let messageId := jsOrS d.run_id st.runId
      match st.startedMessages with
      | none => ([UIEvent.textMessageStart messageId], st, false)
      | some l =>
          if messageId ∈ l then ([], st, false)
          else
            ([UIEvent.textMessageStart messageId],
             { st with startedMessages := some (l ++ [messageId]) }, false)
  else if d.event = "on_chat_model_end" then
    if md.emitMessages = some false then ([], st, true)
    else
      let messageId := jsOrS d.run_id st.runId
      match st.startedMessages with
      | some l =>
          if messageId ∈ l then ([UIEvent.textMessageEnd messageId], st, false)
          else
            ([UIEvent.textMessageStart messageId, UIEvent.textMessageEnd messageId],
             { st with startedMessages := some (l ++ [messageId]) }, false)
      | none => ([UIEvent.textMessageEnd messageId], st, false)
  else if d.event = "on_tool_start" then
    if md.emitToolCalls = some false then ([], st, true)
    else
      let toolCallId := jsOrS d.run_id st.runId
      let argsEvs := match d.input with
        | some i => [UIEvent.toolCallArgs toolCallId i]
        | none => []
      match st.startedToolCalls with
      | none => ([UIEvent.toolCallStart toolCallId d.name st.runId] ++ argsEvs, st, false)
      | some l =>
          if toolCallId ∈ l then (argsEvs, st, false)
          else
            ([UIEvent.toolCallStart toolCallId d.name st.runId] ++ argsEvs,
             { st with startedToolCalls := some (l ++ [toolCallId]) }, false)
  else if d.event = "on_tool_end" then
    if md.emitToolCalls = some false then ([], st, true)
    else
      let toolCallId := jsOrS d.run_id st.runId
      match st.startedToolCalls with
      | some l =>
          if toolCallId ∈ l then ([UIEvent.toolCallEnd toolCallId], st, false)
          else
            ([UIEvent.toolCallStart toolCallId d.name st.runId,
              UIEvent.toolCallEnd toolCallId],
             { st with startedToolCalls := some (l ++ [toolCallId]) }, false)
      | none => ([UIEvent.toolCallEnd toolCallId], st, false)
  else ([], st, false)

/-- The events category branch of processStreamChunk: the specialized
handling followed, on the paths on which no break fired, by the trailing
generic CUSTOM pass-through signal carrying the raw inner event name and
payload. -/
def processEventsChunk (d : EventsData) (md : Metadata) (st : ProcState) :
    List UIEvent × ProcState :=
  let r := processEventsCore d md st
  if r.2.2 = true then (r.1, r.2.1)
  else (r.1 ++ [UIEvent.custom d.event d.rawData], r.2.1)

/-- handleCustomEvent: the switch on the custom event name (name falling
back to event under JavaScript or), producing the synthetic manual
emissions, the intermediate state override, the Exit signal or the
generic fallback. -/
def handleCustomEvent (d : CustomData) (runId : String)
    (manuallyEmittedState : Option String) : List UIEvent × Option String :=
  let eventName := jsOrO d.name d.event
  if eventName = some "copilotkit_manually_emit_message" then
    let messageId := jsOrS (d.value.bind (·.message_id)) runId
    let message := jsOrS (d.value.bind (·.message)) ""
    ([UIEvent.textMessageStart messageId,
      UIEvent.textMessageContent messageId message,
      UIEvent.textMessageEnd messageId], manuallyEmittedState)
  else if eventName = some "copilotkit_manually_emit_tool_call" then
    let toolCallId := jsOrS (d.value.bind (·.id)) runId
    let toolCallName := jsOrS (d.value.bind (·.name)) ""
    let args := match d.value.bind (·.args) with
      | some a => a
      | none => "\x7b\x7d"
    ([UIEvent.toolCallStart toolCallId toolCallName toolCallId,
      UIEvent.toolCallArgs toolCallId args,
      UIEvent.toolCallEnd toolCallId], manuallyEmittedState)
  else if eventName = some "copilotkit_manually_emit_intermediate_state" then
    let newState := d.value.map (·.record)
    ([UIEvent.stateSnapshot newState], newState)
  else if eventName = some "copilotkit_exit" then
    ([UIEvent.custom "Exit" "true"], manuallyEmittedState)
  else
    ([UIEvent.custom (if jsTruthy eventName then eventName.getD "" else "on_custom_event")
        d.raw], manuallyEmittedState)

/-- processStreamChunk: the outer switch on the chunk category. Returns
the emitted events in order together with the updated context state. -/
def processStreamChunk (chunk : StreamChunk) (st : ProcState) :
    List UIEvent × ProcState :=
  match chunk with
  | .metadataC rid _ =>
      ([], if jsTruthy rid then { st with runId := rid.getD "" } else st)
  | .eventsC d md => processEventsChunk d md st
  | .updatesC payload _ => ([UIEvent.stateSnapshot (some payload)], st)
  | .valuesC payload _ => ([UIEvent.stateSnapshot (some payload)], st)
  | .customC d _ =>
      let r := handleCustomEvent d st.runId st.manuallyEmittedState
      (r.1, { st with manuallyEmittedState := r.2 })
  | .errorC raw _ => ([UIEvent.custom "on_error" raw], st)
  | .otherC _ => ([], st)

/-! ## History hydration (runner/history-hydrating-runner.ts connect) -/

/-- An opaque JavaScript value reaching JSON.stringify: repr is its JSON
text, circular marks a value on which JSON.stringify throws. -/
structure JsVal where
  repr : String
  circular : Bool := false
deriving DecidableEq, Repr

/-- JSON.stringify on an optional interrupt value: throws on a circular
value; an absent value renders as undefined, modelled by the empty
rendering. -/
def stringifyInterrupt : Option JsVal → Except Unit String
  | none => Except.ok ""
  | some v => if v.circular then Except.error () else Except.ok v.repr

/-- One interrupt of a checkpoint task. -/
structure Interrupt where
  value : Option JsVal := none
deriving DecidableEq, Repr

/-- One task of a checkpoint (only interrupts are consulted). -/
structure CkTask where
  interrupts : Option (List Interrupt) := none
deriving DecidableEq, Repr

/-- The values record of a checkpoint: its optional messages list plus
raw, the whole record in serialized form (used by STATE_SNAPSHOT). -/
structure StateValues where
  messages : Option (List LangGraphMessage) := none
  raw : String := ""
deriving DecidableEq, Repr

/-- A checkpoint (ThreadState): values, next and tasks, each optional in
the source; an absent next behaves as the empty list. -/
structure Checkpoint where
  values : Option StateValues := none
  next : List String := []
  tasks : Option (List CkTask) := none
deriving DecidableEq, Repr

/-- A run as returned by client.runs.list. -/
structure Run where
  run_id : String
  status : String
deriving DecidableEq, Repr

/-- The messages read from one checkpoint: state.values.messages when
present, else nothing. -/
def msgsOf (c : Checkpoint) : List LangGraphMessage :=
  match c.values with
  | some v => v.messages.getD []
  | none => []

/-- One step of the deduplication loop: the accumulator carries the
collected messages and the seen id set (as an insertion-ordered list);
a message whose id was already seen is skipped. -/
def dedupStep (acc : List LangGraphMessage × List String) (msg : LangGraphMessage) :
    List LangGraphMessage × List String :=
  if msg.id ∈ acc.2 then acc else (acc.1 ++ [msg], acc.2 ++ [msg.id])

/-- The deduplication pass of connect: walk the reversed (oldest-first)
history, and within each checkpoint walk its messages, keeping each id
at its first occurrence. -/
def dedupMessages (hist : List Checkpoint) : List LangGraphMessage :=
  (hist.reverse.foldl (fun acc cp => (msgsOf cp).foldl dedupStep acc) ([], [])).1

/-- The tail-keep trim: allMessages.slice (-limit) when the configured
limit is positive, else the untrimmed list. -/
def limitMessages (limit : Int) (allMessages : List LangGraphMessage) :
    List LangGraphMessage :=
  if limit > 0 then allMessages.drop (allMessages.length - limit.toNat) else allMessages

/-- The run id resolution of connect: the run_id of the first listed run
when the lookup succeeds and is non-empty, else the generated fallback. -/
def resolveRunId (runsList : Except Unit (List Run)) (fallbackRunId : String) : String :=
  match runsList with
  | .ok (r :: _) => r.run_id
  | .ok [] => fallbackRunId
  | .error _ => fallbackRunId

/-- The latest checkpoint as connect computes it: the last element of the
in-place reversed history array (with the head as the default the source
never reaches on a non-empty array). -/
def latestOf (c : Checkpoint) (cs : List Checkpoint) : Checkpoint :=
  ((c :: cs).reverse).getLastD c

/-- The thread-busy guard: latestState.next is present and non-empty. -/
def threadBusy (latest : Checkpoint) : Bool :=
  decide (0 < latest.next.length)

/-- The interrupt extraction shared by connect and the post-stream check:
finds the first task carrying a non-empty interrupts list and returns the
value of its first interrupt (some when such a task exists). -/
def interruptValueOf (c : Checkpoint) : Option (Option JsVal) :=
  match (c.tasks.getD []).find? (fun t =>
      match t.interrupts with
      | some l => decide (0 < l.length)
      | none => false) with
  | none => none
  | some t => some (((t.interrupts.getD []).headD {}).value)

/-- The minimal well-formed event sequence emitted by the empty-history
path and by the error fallback of connect: run-started, empty messages
snapshot, run-finished, all under the one given run id. -/
def minimalSequence (runId : String) : List UIEvent :=
  [UIEvent.runStarted runId,
   UIEvent.messagesSnapshot runId [],
   UIEvent.runFinished runId]

/-- The results of the asynchronous collaborator calls a single connect
performs, plus the generated fallback ids: the history fetch (none models
a null result), the run listing for the run id, the second run listing
for the active-run lookup, the joined stream chunks, whether the stream
iteration itself fails after them, and the final getState lookup. -/
structure ConnectEnv where
  history : Option (List Checkpoint)
  runsList : Except Unit (List Run) := .error ()
  fallbackRunId : String := "hydration_f"
  errorFallbackRunId : String := "hydration_error_f"
  activeRunsList : Except Unit (List Run) := .error ()
  streamChunks : List StreamChunk := []
  streamFails : Bool := false
  finalState : Except Unit Checkpoint := .error ()
  initManuallyEmittedState : Option String := none
deriving Repr

/-- One iteration of the chunk loop of joinAndProcessStream: process the
chunk in the current context state and forward its events. -/
def streamStep (acc : List UIEvent × ProcState) (c : StreamChunk) :
    List UIEvent × ProcState :=
  let e := processStreamChunk c acc.2
  (acc.1 ++ e.1, e.2)

/-- The interrupt check joinAndProcessStream performs after the stream
completes: a failing getState, a state with no interrupted task, and an
interrupt whose serialization throws (caught locally) all emit nothing. -/
def postStreamInterruptEvents (finalState : Except Unit Checkpoint) : List UIEvent :=
  match finalState with
  | .error _ => []
  | .ok stt =>
      match interruptValueOf stt with
      | none => []
      | some iv =>
          match stringifyInterrupt iv with
          | .ok s => [UIEvent.custom "on_interrupt" s]
          | .error _ => []

/-- joinAndProcessStream: feeds every chunk through processStreamChunk
with fresh started sets, then (on a stream that does not fail) checks the
final thread state for an interrupt, and emits RUN_FINISHED; when the
stream iteration throws, the catch emits RUN_FINISHED under the original
run id and rethrows (third component true). -/
def joinAndProcessStream (runId : String) (chunks : List StreamChunk)
    (streamFails : Bool) (finalState : Except Unit Checkpoint)
    (manu0 : Option String) : List UIEvent × Option String × Bool :=
  let st0 : ProcState :=
    { runId := runId, startedMessages := some [], startedToolCalls := some [],
      manuallyEmittedState := manu0 }
  let r := chunks.foldl streamStep ([], st0)
  if streamFails then (r.1 ++ [UIEvent.runFinished runId], manu0, true)
  else
    (r.1 ++ postStreamInterruptEvents finalState ++ [UIEvent.runFinished r.2.runId],
     r.2.manuallyEmittedState, false)

/-- The active-run lookup of connect: performed only when the thread is
busy; a failing run listing degrades to no active run. -/
def findActiveRun (busy : Bool) (runsList : Except Unit (List Run)) : Option Run :=
  if busy then
    match runsList with
    | .ok runs => runs.find? fun r => r.status == "running" || r.status == "pending"
    | .error _ => none
  else none

/-- The branch of connect after the snapshot events: the active-run
lookup guarded by the thread-busy flag, the live-stream join or the
direct RUN_FINISHED. -/
def connectTail (runId : String) (latest : Checkpoint) (env : ConnectEnv) :
    List UIEvent :=
  match findActiveRun (threadBusy latest) env.activeRunsList with
  | some r =>
      (joinAndProcessStream r.run_id env.streamChunks env.streamFails env.finalState
        env.initManuallyEmittedState).1
  | none => [UIEvent.runFinished runId]

/-- The part of connect after RUN_STARTED and MESSAGES_SNAPSHOT: the
state snapshot of the latest checkpoint, the interrupt emission (whose
JSON serialization, when it throws, escapes to the outer catch and
triggers the error fallback), then the tail. -/
def connectAfterSnapshot (runId : String) (env : ConnectEnv)
    (c : Checkpoint) (cs : List Checkpoint) : List UIEvent :=
  let latest := latestOf c cs
  let stateEvs := match latest.values with
    | some v => [UIEvent.stateSnapshot (some v.raw)]
    | none => []
  match interruptValueOf latest with
  | some iv =>
      match stringifyInterrupt iv with
      | .error _ => stateEvs ++ minimalSequence env.errorFallbackRunId
      | .ok s => stateEvs ++ [UIEvent.custom "on_interrupt" s] ++ connectTail runId latest env
  | none => stateEvs ++ connectTail runId latest env

/-- The non-empty-history path of connect: deduplicate, trim, transform,
resolve the run id, emit RUN_STARTED and MESSAGES_SNAPSHOT, then the
rest. -/
def connectHydrate (limit : Int) (env : ConnectEnv)
    (c : Checkpoint) (cs : List Checkpoint) : List UIEvent :=
  let transformedMessages :=
    transformMessages (limitMessages limit (dedupMessages (c :: cs)))
  let runId := resolveRunId env.runsList env.fallbackRunId
  [UIEvent.runStarted runId, UIEvent.messagesSnapshot runId transformedMessages]
    ++ connectAfterSnapshot runId env c cs

/-- connect: the full event sequence one connect call emits, as a
function of the collaborator results. A null or empty history takes the
minimal-sequence path under the generated fallback run id. -/
def connect (limit : Int) (env : ConnectEnv) : List UIEvent :=
  match env.history with
  | none => minimalSequence env.fallbackRunId
  | some [] => minimalSequence env.fallbackRunId
  | some (c :: cs) => connectHydrate limit env c cs

/-! ## Deduplication lemmas -/

/-- Recursive form of the deduplication loop over a flattened message
list, threading the seen id set. -/
def dedupRec (seen : List String) : List LangGraphMessage → List LangGraphMessage
  | [] => []
  | m :: ms =>
      if m.id ∈ seen then dedupRec seen ms
      else m :: dedupRec (seen ++ [m.id]) ms

/-- The seen id set after the deduplication loop. -/
def seenAfter (seen : List String) : List LangGraphMessage → List String
  | [] => seen
  | m :: ms =>
      if m.id ∈ seen then seenAfter seen ms
      else seenAfter (seen ++ [m.id]) ms

theorem foldl_dedupStep (l : List LangGraphMessage) (out : List LangGraphMessage)
    (seen : List String) :
    l.foldl dedupStep (out, seen) = (out ++ dedupRec seen l, seenAfter seen l) := by
  induction l generalizing out seen with
  | nil => simp [dedupRec, seenAfter]
  | cons m ms ih =>
      simp only [List.foldl_cons, dedupStep, dedupRec, seenAfter]
      by_cases h : m.id ∈ seen
      · simp [h, ih]
      · simp [h, ih, List.append_assoc]

theorem foldl_msgsOf_flatMap (cps : List Checkpoint)
    (acc : List LangGraphMessage × List String) :
    cps.foldl (fun acc cp => (msgsOf cp).foldl dedupStep acc) acc
      = (cps.flatMap msgsOf).foldl dedupStep acc := by
  induction cps generalizing acc with
  | nil => simp
  | cons c cs ih => simp [List.flatMap_cons, List.foldl_append, ih]

/-- The connect deduplication pass equals the recursive deduplication of
the oldest-first flattened message list. -/
theorem dedupMessages_eq (hist : List Checkpoint) :
    dedupMessages hist = dedupRec [] (hist.reverse.flatMap msgsOf) := by
  unfold dedupMessages
  rw [foldl_msgsOf_flatMap, foldl_dedupStep]
  simp

theorem countP_dedupRec (seen : List String) (l : List LangGraphMessage) (m : String) :
    (dedupRec seen l).countP (fun a => a.id == m)
      = if m ∈ seen then 0 else if l.any (fun a => a.id == m) then 1 else 0 := by
  induction l generalizing seen with
  | nil => simp [dedupRec]
  | cons x xs ih =>
      simp only [dedupRec]
      by_cases hx : x.id ∈ seen
      · rw [if_pos hx, ih]
        by_cases hm : m ∈ seen
        · simp [hm]
        · have hne : (x.id == m) = false := by
            simp only [beq_eq_false_iff_ne]
            intro h
            exact hm (h ▸ hx)
          simp [hm, List.any_cons, hne]
      · rw [if_neg hx]
        simp only [List.countP_cons, ih]
        by_cases hxm : x.id = m
        · subst hxm
          have hmem : x.id ∈ seen ++ [x.id] := by simp
          simp [hx, hmem]
        · have hne : (x.id == m) = false := by
            simp only [beq_eq_false_iff_ne]
            exact hxm
          by_cases hm : m ∈ seen
          · have : m ∈ seen ++ [x.id] := by simp [hm]
            simp [this, hm, hne]
          · have : m ∉ seen ++ [x.id] := by simp [hm, Ne.symm hxm]
            simp [this, hm, List.any_cons, hne]

theorem find?_dedupRec (seen : List String) (l : List LangGraphMessage) (m : String)
    (hm : m ∉ seen) :
    (dedupRec seen l).find? (fun a => a.id == m) = l.find? (fun a => a.id == m) := by
  induction l generalizing seen with
  | nil => simp [dedupRec]
  | cons x xs ih =>
      simp only [dedupRec]
      by_cases hx : x.id ∈ seen
      · rw [if_pos hx]
        have hne : (x.id == m) = false := by
          simp only [beq_eq_false_iff_ne]
          intro h
          exact hm (h ▸ hx)
        rw [List.find?_cons_of_neg _ (by simp [hne]), ih seen hm]
      · rw [if_neg hx]
        by_cases hxm : x.id = m
        · subst hxm
          rw [List.find?_cons_of_pos _ (by simp), List.find?_cons_of_pos _ (by simp)]
        · have hne : (x.id == m) = false := by
            simp only [beq_eq_false_iff_ne]
            exact hxm
          rw [List.find?_cons_of_neg _ (by simp [hne]),
            List.find?_cons_of_neg _ (by simp [hne])]
          exact ih (seen ++ [x.id]) (by simp [hm, Ne.symm hxm])

theorem dedupRec_sublist (seen : List String) (l : List LangGraphMessage) :
    (dedupRec seen l).Sublist l := by
  induction l generalizing seen with
  | nil => simp [dedupRec]
  | cons x xs ih =>
      simp only [dedupRec]
      by_cases hx : x.id ∈ seen
      · rw [if_pos hx]
        exact (ih seen).trans (List.sublist_cons_self x xs)
      · rw [if_neg hx]
        exact (ih (seen ++ [x.id])).cons₂ x

/-! ## Event classification helpers -/

/-- Whether an event is RUN_STARTED. -/
def isRunStarted : UIEvent → Bool
  | .runStarted _ => true
  | _ => false

/-- Whether an event is RUN_FINISHED. -/
def isRunFinished : UIEvent → Bool
  | .runFinished _ => true
  | _ => false

/-- Whether an event is one of the TEXT_MESSAGE events. -/
def isTextMessageEvent : UIEvent → Bool
  | .textMessageStart _ => true
  | .textMessageContent _ _ => true
  | .textMessageEnd _ => true
  | _ => false

/-- Whether an event is one of the TOOL_CALL events. -/
def isToolCallEvent : UIEvent → Bool
  | .toolCallStart _ _ _ => true
  | .toolCallArgs _ _ => true
  | .toolCallEnd _ => true
  | _ => false

/-- The metadata map of a chunk. -/
def chunkMetadata : StreamChunk → Metadata
  | .metadataC _ md => md
  | .eventsC _ md => md
  | .updatesC _ md => md
  | .valuesC _ md => md
  | .customC _ md => md
  | .errorC _ md => md
  | .otherC md => md

/-- Whether a chunk is of the custom outer category. -/
def isCustomChunk : StreamChunk → Bool
  | .customC _ _ => true
  | _ => false

/-! ## Claim C1 -/

/-- C1: the connect hydration deduplicates by message id over the
oldest-first walk of the checkpoints: an id held by two or more
checkpoints appears exactly once in the deduplicated list, the surviving
entry is the first occurrence in the oldest-first flattened order, and
the deduplicated list is an order-preserving sublist of that flattened
order. -/
theorem claim1_dedup_exactly_once (hist : List Checkpoint) (m : String)
    (h : 2 ≤ hist.countP fun c => (msgsOf c).any fun a => a.id == m) :
    (dedupMessages hist).countP (fun a => a.id == m) = 1 ∧
    (dedupMessages hist).find? (fun a => a.id == m)
      = (hist.reverse.flatMap msgsOf).find? (fun a => a.id == m) ∧
    (dedupMessages hist).Sublist (hist.reverse.flatMap msgsOf) := by
  have hpos : 0 < hist.countP fun c => (msgsOf c).any fun a => a.id == m := by omega
  rw [List.countP_pos_iff] at hpos
  obtain ⟨c, hc, hcp⟩ := hpos
  have hany : (hist.reverse.flatMap msgsOf).any (fun a => a.id == m) = true := by
    rw [List.any_eq_true] at hcp ⊢
    obtain ⟨a, ha, hap⟩ := hcp
    exact ⟨a, List.mem_flatMap.mpr ⟨c, List.mem_reverse.mpr hc, ha⟩, hap⟩
  refine ⟨?_, ?_, ?_⟩
  · rw [dedupMessages_eq, countP_dedupRec]
    simp [hany]
  · rw [dedupMessages_eq]
    exact find?_dedupRec [] _ m (by simp)
  · rw [dedupMessages_eq]
    exact dedupRec_sublist [] _

/-- Sample message with id 1. -/
def w1msg : LangGraphMessage := { id := "1", type := "human", content := .str "hey" }

/-- Sample message with id 2. -/
def w2msg : LangGraphMessage := { id := "2", type := "ai", content := .str "hi" }

/-- The newer sample checkpoint, holding only message id 2. -/
def c1cpNew : Checkpoint := { values := some { messages := some [w2msg] } }

/-- The older sample checkpoint, holding message ids 1 and 2. -/
def c1cpOld : Checkpoint := { values := some { messages := some [w1msg, w2msg] } }

/-- A two-checkpoint history, newest-first, holding message id 2 twice. -/
def c1hist : List Checkpoint := [c1cpNew, c1cpOld]

theorem claim1_dedup_exactly_once_witness :
    (2 ≤ c1hist.countP fun c => (msgsOf c).any fun a => a.id == "2") ∧
    ((dedupMessages c1hist).countP (fun a => a.id == "2") = 1 ∧
     (dedupMessages c1hist).find? (fun a => a.id == "2")
       = (c1hist.reverse.flatMap msgsOf).find? (fun a => a.id == "2") ∧
     (dedupMessages c1hist).Sublist (c1hist.reverse.flatMap msgsOf)) :=
  ⟨by decide, claim1_dedup_exactly_once c1hist "2" (by decide)⟩

/-! ## Claims C6, C7, C8 -/

/-- C6: on an empty or absent history fetch result connect emits exactly
three events, RUN_STARTED, an empty MESSAGES_SNAPSHOT and RUN_FINISHED,
all under the synthesized fallback run id, and never zero events. -/
theorem claim6_empty_history (limit : Int) (env : ConnectEnv)
    (h : env.history = none ∨ env.history = some []) :
    connect limit env
        = [UIEvent.runStarted env.fallbackRunId,
           UIEvent.messagesSnapshot env.fallbackRunId [],
           UIEvent.runFinished env.fallbackRunId] ∧
    (connect limit env).length = 3 := by
  rcases h with h | h <;>
    · unfold connect
      rw [h]
      exact ⟨rfl, rfl⟩

theorem claim6_empty_history_witness :
    ((ConnectEnv.mk (some []) (.error ()) "hydration_f" "hydration_error_f"
        (.error ()) [] false (.error ()) none).history = none ∨
     (ConnectEnv.mk (some []) (.error ()) "hydration_f" "hydration_error_f"
        (.error ()) [] false (.error ()) none).history = some []) ∧
    (connect 100 (ConnectEnv.mk (some []) (.error ()) "hydration_f" "hydration_error_f"
        (.error ()) [] false (.error ()) none)
        = [UIEvent.runStarted "hydration_f",
           UIEvent.messagesSnapshot "hydration_f" [],
           UIEvent.runFinished "hydration_f"] ∧
     (connect 100 (ConnectEnv.mk (some []) (.error ()) "hydration_f" "hydration_error_f"
        (.error ()) [] false (.error ()) none)).length = 3) :=
  ⟨Or.inr rfl,
   claim6_empty_history 100 _ (Or.inr rfl)⟩

/-- C7: with a positive limit smaller than the deduplicated count, the
trim keeps exactly the last limit entries of the deduplicated sequence,
and the snapshot connect emits is the projection of that trimmed list
(projection applied after the trim). -/
theorem claim7_limit_trims_oldest (limit : Int) (env : ConnectEnv)
    (c : Checkpoint) (cs : List Checkpoint)
    (hh : env.history = some (c :: cs)) (hpos : 0 < limit)
    (hgt : limit.toNat < (dedupMessages (c :: cs)).length) :
    limitMessages limit (dedupMessages (c :: cs))
        = (dedupMessages (c :: cs)).drop
            ((dedupMessages (c :: cs)).length - limit.toNat) ∧
    (limitMessages limit (dedupMessages (c :: cs))).length = limit.toNat ∧
    (connect limit env).take 2
        = [UIEvent.runStarted (resolveRunId env.runsList env.fallbackRunId),
           UIEvent.messagesSnapshot (resolveRunId env.runsList env.fallbackRunId)
             (transformMessages ((dedupMessages (c :: cs)).drop
               ((dedupMessages (c :: cs)).length - limit.toNat)))] := by
  have h1 : limitMessages limit (dedupMessages (c :: cs))
      = (dedupMessages (c :: cs)).drop
          ((dedupMessages (c :: cs)).length - limit.toNat) := by
    unfold limitMessages
    rw [if_pos hpos]
  refine ⟨h1, ?_, ?_⟩
  · rw [h1, List.length_drop]
    omega
  · unfold connect
    rw [hh]
    simp only [connectHydrate]
    rw [h1]
    simp

/-- Sample message with id 3. -/
def w3msg : LangGraphMessage := { id := "3", type := "ai", content := .str "yo" }

/-- A checkpoint holding three distinct messages, for the limit witness. -/
def c7cp : Checkpoint := { values := some { messages := some [w1msg, w2msg, w3msg] } }

/-- History for the limit witness. -/
def c7hist : List Checkpoint := [c7cp]

theorem claim7_limit_trims_oldest_witness :
    ((ConnectEnv.mk (some c7hist) (.error ()) "hydration_f" "hydration_error_f"
        (.error ()) [] false (.error ()) none).history = some c7hist ∧
     0 < (2 : Int) ∧
     (2 : Int).toNat < (dedupMessages c7hist).length) ∧
    (limitMessages 2 (dedupMessages c7hist)
        = (dedupMessages c7hist).drop ((dedupMessages c7hist).length - (2 : Int).toNat) ∧
     (limitMessages 2 (dedupMessages c7hist)).length = (2 : Int).toNat ∧
     (connect 2 (ConnectEnv.mk (some c7hist) (.error ()) "hydration_f" "hydration_error_f"
        (.error ()) [] false (.error ()) none)).take 2
        = [UIEvent.runStarted "hydration_f",
           UIEvent.messagesSnapshot "hydration_f"
             (transformMessages ((dedupMessages c7hist).drop
               ((dedupMessages c7hist).length - (2 : Int).toNat)))]) := by
  refine ⟨⟨rfl, by decide, by decide⟩, ?_⟩
  exact claim7_limit_trims_oldest 2
    (ConnectEnv.mk (some c7hist) (.error ()) "hydration_f" "hydration_error_f"
      (.error ()) [] false (.error ()) none)
    c7cp [] rfl (by decide) (by decide)

/-- C8: for a non-empty newest-first history, the latest checkpoint
connect indexes after the in-place reversal is the head of the original
input; the STATE_SNAPSHOT carries its values, and the thread-busy guard
of the live-stream-join branch holds iff its next list is non-empty. -/
theorem claim8_latest_checkpoint (limit : Int) (env : ConnectEnv)
    (c : Checkpoint) (cs : List Checkpoint) (v : StateValues)
    (hh : env.history = some (c :: cs)) (hv : c.values = some v) :
    latestOf c cs = c ∧
    UIEvent.stateSnapshot (some v.raw) ∈ connect limit env ∧
    threadBusy (latestOf c cs) = decide (c.next ≠ []) := by
  have hlat : latestOf c cs = c := by
    unfold latestOf
    rw [List.reverse_cons]
    exact List.getLastD_concat _ _ _
  refine ⟨hlat, ?_, ?_⟩
  · unfold connect
    rw [hh]
    simp only [connectHydrate, connectAfterSnapshot]
    rw [hlat, hv]
    rcases hi : interruptValueOf c with _ | iv
    · simp [hi]
    · rcases hs : stringifyInterrupt iv with e | s
      · simp [hi, hs]
      · simp [hi, hs]
  · rw [hlat]
    unfold threadBusy
    exact decide_eq_decide.mpr List.length_pos

theorem claim8_latest_checkpoint_witness :
    ((ConnectEnv.mk (some c1hist) (.error ()) "hydration_f" "hydration_error_f"
        (.error ()) [] false (.error ()) none).history = some (c1cpNew :: [c1cpOld]) ∧
     c1cpNew.values = some { messages := some [w2msg] }) ∧
    (latestOf c1cpNew [c1cpOld] = c1cpNew ∧
     UIEvent.stateSnapshot (some ({ messages := some [w2msg] } : StateValues).raw)
        ∈ connect 100 (ConnectEnv.mk (some c1hist) (.error ()) "hydration_f"
            "hydration_error_f" (.error ()) [] false (.error ()) none) ∧
     threadBusy (latestOf c1cpNew [c1cpOld]) = decide (c1cpNew.next ≠ [])) := by
  refine ⟨⟨rfl, rfl⟩, ?_⟩
  exact claim8_latest_checkpoint 100 _ c1cpNew [c1cpOld] _ rfl rfl

/-! ## Claim C2 -/

/-- The conditions under which the events branch of processStreamChunk
leaves the switch early (the source break statements): the PredictState
diversion, and the emit flag suppressions of the five specialized
lifecycle handlers. -/
def eventsChunkBreaks (d : EventsData) (md : Metadata) : Bool :=
  ((d.event == "on_chat_model_stream") && toolCallUsedToPredictState d md)
  || ((d.event == "on_chat_model_stream") && !(toolCallUsedToPredictState d md)
       && contentTruthy d.chunkContent && (md.emitMessages == some false))
  || ((d.event == "on_chat_model_start") && (md.emitMessages == some false))
  || ((d.event == "on_chat_model_end") && (md.emitMessages == some false))
  || ((d.event == "on_tool_start") && (md.emitToolCalls == some false))
  || ((d.event == "on_tool_end") && (md.emitToolCalls == some false))

/-- C2 counterexample: an events chunk with text content whose metadata
carries emit-messages false emits nothing at all, in particular no
trailing generic pass-through CUSTOM signal. -/
theorem claim2_passthrough_counterexample :
    (processStreamChunk
      (.eventsC
        { event := "on_chat_model_stream", name := "t", run_id := some "m",
          chunkContent := some (.str "hi"), rawData := "raw" }
        { emitMessages := some false })
      { runId := "r" }).1 = [] := by
  rfl

/-- Whether an event is a CUSTOM signal with a string value. -/
def isCustomSignal : UIEvent → Bool
  | .custom _ _ => true
  | _ => false

theorem processEventsCore_broke (d : EventsData) (md : Metadata) (st : ProcState) :
    (processEventsCore d md st).2.2 = eventsChunkBreaks d md := by
  rcases st with ⟨rid, sm, stc, ms⟩
  unfold processEventsCore eventsChunkBreaks
  by_cases h1 : d.event = "on_chat_model_stream"
  · by_cases htc : toolCallUsedToPredictState d md = true
    · simp [h1, htc]
    · have htc2 : toolCallUsedToPredictState d md = false := by
        cases h : toolCallUsedToPredictState d md
        · rfl
        · exact absurd h htc
      by_cases hct : contentTruthy d.chunkContent = true
      · by_cases hm : md.emitMessages = some false
        · simp [h1, htc2, hct, hm, beq_iff_eq]
        · have hmb : (md.emitMessages == some false) = false :=
            beq_eq_false_iff_ne.mpr hm
          cases sm <;> simp [h1, htc2, hct, hm, hmb] <;> split_ifs <;> rfl
      · have hct2 : contentTruthy d.chunkContent = false := by
          cases h : contentTruthy d.chunkContent
          · rfl
          · exact absurd h hct
        simp [h1, htc2, hct2]
  · by_cases h2 : d.event = "on_chat_model_start"
    · by_cases hm : md.emitMessages = some false
      · simp [h1, h2, hm, beq_iff_eq]
      · have hmb : (md.emitMessages == some false) = false :=
          beq_eq_false_iff_ne.mpr hm
        cases sm <;> simp [h1, h2, hm, hmb] <;> split_ifs <;> rfl
    · by_cases h3 : d.event = "on_chat_model_end"
      · by_cases hm : md.emitMessages = some false
        · simp [h1, h2, h3, hm, beq_iff_eq]
        · have hmb : (md.emitMessages == some false) = false :=
            beq_eq_false_iff_ne.mpr hm
          cases sm <;> simp [h1, h2, h3, hm, hmb] <;> split_ifs <;> rfl
      · by_cases h4 : d.event = "on_tool_start"
        · by_cases hm : md.emitToolCalls = some false
          · simp [h1, h2, h3, h4, hm, beq_iff_eq]
          · have hmb : (md.emitToolCalls == some false) = false :=
              beq_eq_false_iff_ne.mpr hm
            cases sm <;> cases stc <;> simp [h1, h2, h3, h4, hm, hmb] <;>
              split_ifs <;> rfl
        · by_cases h5 : d.event = "on_tool_end"
          · by_cases hm : md.emitToolCalls = some false
            · simp [h1, h2, h3, h4, h5, hm, beq_iff_eq]
            · have hmb : (md.emitToolCalls == some false) = false :=
                beq_eq_false_iff_ne.mpr hm
              cases sm <;> cases stc <;> simp [h1, h2, h3, h4, h5, hm, hmb] <;>
                split_ifs <;> rfl
          · simp [h1, h2, h3, h4, h5, beq_iff_eq]

theorem processEventsCore_no_custom (d : EventsData) (md : Metadata) (st : ProcState) :
    ((processEventsCore d md st).1.all fun e => !isCustomSignal e) = true := by
  unfold processEventsCore
  repeat' split
  all_goals simp only []
  repeat' split
  all_goals simp [isCustomSignal]

/-- C2 amended: the trailing generic pass-through CUSTOM signal carrying
the raw inner event name and payload is emitted, as the last event, on
exactly the events chunks on which no early switch break fires; a chunk
diverted to PredictState or suppressed by an emit flag emits no
pass-through (and in fact no CUSTOM signal at all). -/
theorem claim2_events_passthrough (d : EventsData) (md : Metadata) (st : ProcState) :
    if eventsChunkBreaks d md = true then
      UIEvent.custom d.event d.rawData ∉ (processStreamChunk (.eventsC d md) st).1
    else
      (processStreamChunk (.eventsC d md) st).1.getLast?
        = some (UIEvent.custom d.event d.rawData) := by
  have hbr := processEventsCore_broke d md st
  cases hb : eventsChunkBreaks d md
  · rw [hb] at hbr
    rw [if_neg (by simp)]
    simp only [processStreamChunk, processEventsChunk, hbr]
    simp [List.getLast?_concat]
  · rw [hb] at hbr
    rw [if_pos rfl]
    simp only [processStreamChunk, processEventsChunk, hbr]
    simp only [eq_self_iff_true, if_true]
    intro hmem
    have hall := processEventsCore_no_custom d md st
    rw [List.all_eq_true] at hall
    have hc := hall _ hmem
    simp [isCustomSignal] at hc

/-! ## Claim C3 -/

/-- C3: with a supplied startedMessages set, a first content chunk for a
message id synthesizes exactly one TEXT_MESSAGE_START immediately before
the TEXT_MESSAGE_CONTENT and records the id; a later explicit
OnChatModelStart chunk for the same id emits no second start event. -/
theorem claim3_idempotent_start (rid delta mid n1 n2 r1 r2 : String)
    (l : List String) (stc : Option (List String)) (ms : Option String)
    (hd : delta ≠ "") (hm : mid ≠ "") (hnew : mid ∉ l) :
    processStreamChunk
        (.eventsC { event := "on_chat_model_stream", name := n1, run_id := some mid,
                    chunkContent := some (.str delta), rawData := r1 } {})
        { runId := rid, startedMessages := some l, startedToolCalls := stc,
          manuallyEmittedState := ms }
      = ([UIEvent.textMessageStart mid, UIEvent.textMessageContent mid delta,
          UIEvent.custom "on_chat_model_stream" r1],
         { runId := rid, startedMessages := some (l ++ [mid]), startedToolCalls := stc,
           manuallyEmittedState := ms }) ∧
    (processStreamChunk
        (.eventsC { event := "on_chat_model_start", name := n2, run_id := some mid,
                    rawData := r2 } {})
        { runId := rid, startedMessages := some (l ++ [mid]), startedToolCalls := stc,
          manuallyEmittedState := ms }).1
      = [UIEvent.custom "on_chat_model_start" r2] := by
  constructor
  · simp [processStreamChunk, processEventsChunk, processEventsCore,
      toolCallUsedToPredictState, contentTruthy, deltaOf, jsOrS, jsTruthy, hd, hm, hnew]
  · simp [processStreamChunk, processEventsChunk, processEventsCore,
      toolCallUsedToPredictState, jsOrS, jsTruthy, hm]

theorem claim3_idempotent_start_witness :
    (("hi" : String) ≠ "" ∧ ("m" : String) ≠ "" ∧ "m" ∉ ([] : List String)) ∧
    (processStreamChunk
        (.eventsC { event := "on_chat_model_stream", name := "a", run_id := some "m",
                    chunkContent := some (.str "hi"), rawData := "raw1" } {})
        { runId := "r", startedMessages := some [], startedToolCalls := some [],
          manuallyEmittedState := none }
      = ([UIEvent.textMessageStart "m", UIEvent.textMessageContent "m" "hi",
          UIEvent.custom "on_chat_model_stream" "raw1"],
         { runId := "r", startedMessages := some ([] ++ ["m"]), startedToolCalls := some [],
           manuallyEmittedState := none }) ∧
     (processStreamChunk
        (.eventsC { event := "on_chat_model_start", name := "b", run_id := some "m",
                    rawData := "raw2" } {})
        { runId := "r", startedMessages := some ([] ++ ["m"]), startedToolCalls := some [],
          manuallyEmittedState := none }).1
      = [UIEvent.custom "on_chat_model_start" "raw2"]) :=
  ⟨⟨by decide, by decide, by decide⟩,
   claim3_idempotent_start "r" "hi" "m" "a" "b" "raw1" "raw2" [] (some []) none
     (by decide) (by decide) (by decide)⟩

/-! ## Claim C4 -/

/-- The custom value of the manual message emission counterexample. -/
def c4value : CustomValue := { message_id := some "x", message := some "hello" }

/-- The custom data of the manual message emission counterexample. -/
def c4data : CustomData :=
  { name := some "copilotkit_manually_emit_message", value := some c4value }

/-- Metadata carrying both suppression flags explicitly false. -/
def c4md : Metadata := { emitMessages := some false, emitToolCalls := some false }

/-- C4 counterexample: a custom chunk named manually-emit-message whose
metadata carries emit-messages false (and emit-tool-calls false) still
emits the full TEXT_MESSAGE_START, CONTENT, END triple: the custom
branch never consults the flags. -/
theorem claim4_flag_counterexample :
    (c4md.emitMessages = some false) ∧
    (processStreamChunk (.customC c4data c4md) { runId := "r" }).1
      = [UIEvent.textMessageStart "x", UIEvent.textMessageContent "x" "hello",
         UIEvent.textMessageEnd "x"] :=
  ⟨rfl, rfl⟩

theorem processEventsCore_no_text (d : EventsData) (md : Metadata) (st : ProcState)
    (hm : md.emitMessages = some false) :
    ((processEventsCore d md st).1.all fun e => !isTextMessageEvent e) = true := by
  unfold processEventsCore
  repeat' split
  all_goals simp only []
  repeat' split
  all_goals simp_all [isTextMessageEvent]

theorem processEventsCore_no_tool (d : EventsData) (md : Metadata) (st : ProcState)
    (hm : md.emitToolCalls = some false) :
    ((processEventsCore d md st).1.all fun e => !isToolCallEvent e) = true := by
  unfold processEventsCore
  repeat' split
  all_goals simp only []
  repeat' split
  all_goals simp_all [isToolCallEvent]

theorem processEventsChunk_all_of_core (p : UIEvent → Bool) (d : EventsData)
    (md : Metadata) (st : ProcState)
    (hcore : ((processEventsCore d md st).1.all fun e => !p e) = true)
    (hcustom : ∀ n v, p (UIEvent.custom n v) = false) :
    ((processEventsChunk d md st).1.all fun e => !p e) = true := by
  unfold processEventsChunk
  simp only []
  split_ifs <;> simp_all [List.all_append, hcustom]

/-- C4 amended: the emit flag suppressions hold on every chunk except
the custom outer category: a non-custom chunk with emit-messages false
emits no TEXT_MESSAGE event, and one with emit-tool-calls false emits no
TOOL_CALL event; the manual emissions of custom chunks ignore both
flags. -/
theorem claim4_flag_suppression_amended (chunk : StreamChunk) (st : ProcState)
    (h : isCustomChunk chunk = false) :
    (((processStreamChunk chunk st).1.all fun e => !isTextMessageEvent e)
        || !((chunkMetadata chunk).emitMessages == some false)) = true ∧
    (((processStreamChunk chunk st).1.all fun e => !isToolCallEvent e)
        || !((chunkMetadata chunk).emitToolCalls == some false)) = true := by
  cases chunk with
  | eventsC d md =>
      constructor
      · by_cases hm : md.emitMessages = some false
        · have hall := processEventsChunk_all_of_core isTextMessageEvent d md st
            (processEventsCore_no_text d md st hm) (fun n v => rfl)
          simp [processStreamChunk, hall]
        · simp [chunkMetadata, beq_eq_false_iff_ne.mpr hm]
      · by_cases hm : md.emitToolCalls = some false
        · have hall := processEventsChunk_all_of_core isToolCallEvent d md st
            (processEventsCore_no_tool d md st hm) (fun n v => rfl)
          simp [processStreamChunk, hall]
        · simp [chunkMetadata, beq_eq_false_iff_ne.mpr hm]
  | customC d md => simp [isCustomChunk] at h
  | metadataC rid md =>
      constructor <;> simp [processStreamChunk, isTextMessageEvent, isToolCallEvent]
  | updatesC payload md =>
      constructor <;> simp [processStreamChunk, isTextMessageEvent, isToolCallEvent]
  | valuesC payload md =>
      constructor <;> simp [processStreamChunk, isTextMessageEvent, isToolCallEvent]
  | errorC raw md =>
      constructor <;> simp [processStreamChunk, isTextMessageEvent, isToolCallEvent]
  | otherC md =>
      constructor <;> simp [processStreamChunk, isTextMessageEvent, isToolCallEvent]

/-- The events chunk of the C4 witness: an explicit start event carrying
both suppression flags false. -/
def c4chunk : StreamChunk :=
  .eventsC { event := "on_chat_model_start", name := "a", run_id := some "m",
             rawData := "raw" } c4md

theorem claim4_flag_suppression_amended_witness :
    (isCustomChunk c4chunk = false) ∧
    ((((processStreamChunk c4chunk { runId := "r" }).1.all
        fun e => !isTextMessageEvent e)
        || !((chunkMetadata c4chunk).emitMessages == some false)) = true ∧
     (((processStreamChunk c4chunk { runId := "r" }).1.all
        fun e => !isToolCallEvent e)
        || !((chunkMetadata c4chunk).emitToolCalls == some false)) = true) :=
  ⟨rfl, claim4_flag_suppression_amended c4chunk { runId := "r" } rfl⟩

/-! ## Claim C9 -/

/-- C9: with the optional started sets absent, a content chunk emits its
TEXT_MESSAGE_CONTENT with no synthesized start, an OnChatModelStart
chunk emits TEXT_MESSAGE_START with no deduplication, OnToolEnd emits
TOOL_CALL_END with no synthesized start, OnToolStart emits
TOOL_CALL_START every time, and the session state never changes, so the
start events recur on every occurrence: start synthesis and idempotence
are both conditional on the sets being supplied. -/
theorem claim9_optional_sets (rid delta mid tid n r1 r2 r3 r4 inp : String)
    (ms : Option String)
    (hd : delta ≠ "") (hm : mid ≠ "") (ht : tid ≠ "") :
    processStreamChunk
        (.eventsC { event := "on_chat_model_stream", name := n, run_id := some mid,
                    chunkContent := some (.str delta), rawData := r1 } {})
        { runId := rid, manuallyEmittedState := ms }
      = ([UIEvent.textMessageContent mid delta, UIEvent.custom "on_chat_model_stream" r1],
         { runId := rid, manuallyEmittedState := ms }) ∧
    processStreamChunk
        (.eventsC { event := "on_chat_model_start", name := n, run_id := some mid,
                    rawData := r2 } {})
        { runId := rid, manuallyEmittedState := ms }
      = ([UIEvent.textMessageStart mid, UIEvent.custom "on_chat_model_start" r2],
         { runId := rid, manuallyEmittedState := ms }) ∧
    processStreamChunk
        (.eventsC { event := "on_tool_end", name := n, run_id := some tid,
                    rawData := r3 } {})
        { runId := rid, manuallyEmittedState := ms }
      = ([UIEvent.toolCallEnd tid, UIEvent.custom "on_tool_end" r3],
         { runId := rid, manuallyEmittedState := ms }) ∧
    processStreamChunk
        (.eventsC { event := "on_tool_start", name := n, run_id := some tid,
                    input := some inp, rawData := r4 } {})
        { runId := rid, manuallyEmittedState := ms }
      = ([UIEvent.toolCallStart tid n rid, UIEvent.toolCallArgs tid inp,
          UIEvent.custom "on_tool_start" r4],
         { runId := rid, manuallyEmittedState := ms }) := by
  refine ⟨?_, ?_, ?_, ?_⟩ <;>
    simp [processStreamChunk, processEventsChunk, processEventsCore,
      toolCallUsedToPredictState, contentTruthy, deltaOf, jsOrS, jsTruthy, hd, hm, ht]

theorem claim9_optional_sets_witness :
    (("hi" : String) ≠ "" ∧ ("m" : String) ≠ "" ∧ ("t" : String) ≠ "") ∧
    (processStreamChunk
        (.eventsC { event := "on_chat_model_stream", name := "n", run_id := some "m",
                    chunkContent := some (.str "hi"), rawData := "r1" } {})
        { runId := "r", manuallyEmittedState := none }
      = ([UIEvent.textMessageContent "m" "hi", UIEvent.custom "on_chat_model_stream" "r1"],
         { runId := "r", manuallyEmittedState := none }) ∧
     processStreamChunk
        (.eventsC { event := "on_chat_model_start", name := "n", run_id := some "m",
                    rawData := "r2" } {})
        { runId := "r", manuallyEmittedState := none }
      = ([UIEvent.textMessageStart "m", UIEvent.custom "on_chat_model_start" "r2"],
         { runId := "r", manuallyEmittedState := none }) ∧
     processStreamChunk
        (.eventsC { event := "on_tool_end", name := "n", run_id := some "t",
                    rawData := "r3" } {})
        { runId := "r", manuallyEmittedState := none }
      = ([UIEvent.toolCallEnd "t", UIEvent.custom "on_tool_end" "r3"],
         { runId := "r", manuallyEmittedState := none }) ∧
     processStreamChunk
        (.eventsC { event := "on_tool_start", name := "n", run_id := some "t",
                    input := some "inp", rawData := "r4" } {})
        { runId := "r", manuallyEmittedState := none }
      = ([UIEvent.toolCallStart "t" "n" "r", UIEvent.toolCallArgs "t" "inp",
          UIEvent.custom "on_tool_start" "r4"],
         { runId := "r", manuallyEmittedState := none })) :=
  ⟨⟨by decide, by decide, by decide⟩,
   claim9_optional_sets "r" "hi" "m" "t" "n" "r1" "r2" "r3" "r4" "inp" none
     (by decide) (by decide) (by decide)⟩

/-! ## Claim C10 -/

/-- The custom data of a manual message emission carrying an explicit
message id and text. -/
def manualEmitMsg (mid msg : String) : CustomData :=
  { name := some "copilotkit_manually_emit_message",
    value := some { message_id := some mid, message := some msg } }

theorem jsOrS_some_empty (s : String) : jsOrS (some s) "" = s := by
  by_cases h : s = "" <;> simp [jsOrS, jsTruthy, h]

/-- C10: a custom chunk never changes the started sets nor the run id,
whatever its event name (only the manually emitted state may change);
the manual message emission emits its synthetic START, CONTENT, END
triple unconditionally, without consulting the sets, and a manually
emitted id later seen in a streamed OnChatModelStart event receives a
second TEXT_MESSAGE_START. -/
theorem claim10_custom_frame (d : CustomData) (md md2 : Metadata)
    (st : ProcState) (l : List String) (mid msg r2 n2 : String)
    (h1 : st.startedMessages = some l) (h2 : mid ∉ l) (h3 : mid ≠ "") :
    ((processStreamChunk (.customC d md) st).2.startedMessages = st.startedMessages) ∧
    ((processStreamChunk (.customC d md) st).2.startedToolCalls = st.startedToolCalls) ∧
    ((processStreamChunk (.customC d md) st).2.runId = st.runId) ∧
    ((processStreamChunk (.customC (manualEmitMsg mid msg) md2) st).1
      = [UIEvent.textMessageStart mid, UIEvent.textMessageContent mid msg,
         UIEvent.textMessageEnd mid]) ∧
    ((processStreamChunk
        (.eventsC { event := "on_chat_model_start", name := n2, run_id := some mid,
                    rawData := r2 } {})
        (processStreamChunk (.customC (manualEmitMsg mid msg) md2) st).2).1.head?
      = some (UIEvent.textMessageStart mid)) := by
  refine ⟨?_, ?_, ?_, ?_, ?_⟩
  · simp [processStreamChunk]
  · simp [processStreamChunk]
  · simp [processStreamChunk]
  · simp [processStreamChunk, handleCustomEvent, manualEmitMsg, jsOrO, jsOrS,
      jsTruthy, h3, jsOrS_some_empty]
    exact fun h => h.symm
  · simp [processStreamChunk, processEventsChunk, processEventsCore, handleCustomEvent,
      manualEmitMsg, toolCallUsedToPredictState, jsOrO, jsOrS, jsTruthy,
      h1, h2, h3]

theorem claim10_custom_frame_witness :
    (({ runId := "r", startedMessages := some [], startedToolCalls := some [],
        manuallyEmittedState := none } : ProcState).startedMessages = some [] ∧
      "m" ∉ ([] : List String) ∧ ("m" : String) ≠ "") ∧
    (((processStreamChunk (.customC {} {})
        { runId := "r", startedMessages := some [], startedToolCalls := some [],
          manuallyEmittedState := none }).2.startedMessages = some []) ∧
     ((processStreamChunk (.customC {} {})
        { runId := "r", startedMessages := some [], startedToolCalls := some [],
          manuallyEmittedState := none }).2.startedToolCalls = some []) ∧
     ((processStreamChunk (.customC {} {})
        { runId := "r", startedMessages := some [], startedToolCalls := some [],
          manuallyEmittedState := none }).2.runId = "r") ∧
     ((processStreamChunk (.customC (manualEmitMsg "m" "hello") {})
        { runId := "r", startedMessages := some [], startedToolCalls := some [],
          manuallyEmittedState := none }).1
       = [UIEvent.textMessageStart "m", UIEvent.textMessageContent "m" "hello",
          UIEvent.textMessageEnd "m"]) ∧
     ((processStreamChunk
        (.eventsC { event := "on_chat_model_start", name := "b", run_id := some "m",
                    rawData := "r2" } {})
        (processStreamChunk (.customC (manualEmitMsg "m" "hello") {})
          { runId := "r", startedMessages := some [], startedToolCalls := some [],
            manuallyEmittedState := none }).2).1.head?
       = some (UIEvent.textMessageStart "m"))) := by
  refine ⟨⟨rfl, by decide, by decide⟩, ?_⟩
  have h := claim10_custom_frame {} {} {}
    { runId := "r", startedMessages := some [], startedToolCalls := some [],
      manuallyEmittedState := none } [] "m" "hello" "r2" "b" rfl (by decide) (by decide)
  simpa using h

/-! ## Claim C5 -/

/-- Whether an event is RUN_STARTED or RUN_FINISHED. -/
def isRunLifecycle : UIEvent → Bool
  | .runStarted _ => true
  | .runFinished _ => true
  | _ => false

theorem processEventsCore_no_lifecycle (d : EventsData) (md : Metadata) (st : ProcState) :
    ((processEventsCore d md st).1.all fun e => !isRunLifecycle e) = true := by
  unfold processEventsCore
  repeat' split
  all_goals simp only []
  repeat' split
  all_goals simp [isRunLifecycle]

theorem handleCustomEvent_no_lifecycle (d : CustomData) (rid : String)
    (m : Option String) :
    ((handleCustomEvent d rid m).1.all fun e => !isRunLifecycle e) = true := by
  unfold handleCustomEvent
  repeat' split
  all_goals simp only []
  repeat' split
  all_goals simp [isRunLifecycle]

theorem processStreamChunk_no_lifecycle (chunk : StreamChunk) (st : ProcState) :
    ((processStreamChunk chunk st).1.all fun e => !isRunLifecycle e) = true := by
  cases chunk with
  | eventsC d md =>
      exact processEventsChunk_all_of_core isRunLifecycle d md st
        (processEventsCore_no_lifecycle d md st) (fun n v => rfl)
  | customC d md =>
      simpa [processStreamChunk] using
        handleCustomEvent_no_lifecycle d st.runId st.manuallyEmittedState
  | metadataC rid md => simp [processStreamChunk]
  | updatesC p md => simp [processStreamChunk, isRunLifecycle]
  | valuesC p md => simp [processStreamChunk, isRunLifecycle]
  | errorC raw md => simp [processStreamChunk, isRunLifecycle]
  | otherC md => simp [processStreamChunk]

theorem processStreamChunk_countP_zero (chunk : StreamChunk) (st : ProcState) :
    ((processStreamChunk chunk st).1.countP isRunStarted = 0) ∧
    ((processStreamChunk chunk st).1.countP isRunFinished = 0) := by
  have hall := processStreamChunk_no_lifecycle chunk st
  rw [List.all_eq_true] at hall
  constructor <;>
    · rw [List.countP_eq_zero]
      intro a ha
      have h := hall a ha
      cases a <;> simp_all [isRunStarted, isRunFinished, isRunLifecycle]

theorem foldl_streamStep_countP (p : UIEvent → Bool)
    (hp : ∀ chunk st, ((processStreamChunk chunk st).1.countP p) = 0)
    (chunks : List StreamChunk) (acc : List UIEvent × ProcState) :
    ((chunks.foldl streamStep acc).1).countP p = acc.1.countP p := by
  induction chunks generalizing acc with
  | nil => rfl
  | cons c cs ih =>
      rw [List.foldl_cons, ih]
      simp [streamStep, List.countP_append, hp]

theorem postStreamInterruptEvents_counts (fs : Except Unit Checkpoint) :
    (postStreamInterruptEvents fs).countP isRunStarted = 0 ∧
    (postStreamInterruptEvents fs).countP isRunFinished = 0 := by
  unfold postStreamInterruptEvents
  repeat' split
  all_goals simp [isRunStarted, isRunFinished]

theorem joinAndProcessStream_spec (runId : String) (chunks : List StreamChunk)
    (fails : Bool) (fs : Except Unit Checkpoint) (m : Option String) :
    ((joinAndProcessStream runId chunks fails fs m).1.countP isRunStarted = 0) ∧
    ((joinAndProcessStream runId chunks fails fs m).1.countP isRunFinished = 1) ∧
    (∃ x, (joinAndProcessStream runId chunks fails fs m).1.getLast?
        = some (UIEvent.runFinished x)) := by
  have hstart := foldl_streamStep_countP isRunStarted
    (fun c s => (processStreamChunk_countP_zero c s).1) chunks
    ([], { runId := runId, startedMessages := some [], startedToolCalls := some [],
           manuallyEmittedState := m })
  have hfin := foldl_streamStep_countP isRunFinished
    (fun c s => (processStreamChunk_countP_zero c s).2) chunks
    ([], { runId := runId, startedMessages := some [], startedToolCalls := some [],
           manuallyEmittedState := m })
  have hpost := postStreamInterruptEvents_counts fs
  unfold joinAndProcessStream
  simp only []
  cases fails
  · rw [if_neg (by simp)]
    refine ⟨?_, ?_, ?_⟩
    · simp [List.countP_append, hstart, hpost.1, isRunStarted]
    · simp [List.countP_append, hfin, hpost.2, isRunFinished]
    · exact ⟨_, List.getLast?_concat _⟩
  · rw [if_pos rfl]
    refine ⟨?_, ?_, ?_⟩
    · simp [List.countP_append, hstart, isRunStarted]
    · simp [List.countP_append, hfin, isRunFinished]
    · exact ⟨_, List.getLast?_concat _⟩

theorem connectTail_spec (runId : String) (latest : Checkpoint) (env : ConnectEnv) :
    ((connectTail runId latest env).countP isRunStarted = 0) ∧
    ((connectTail runId latest env).countP isRunFinished = 1) ∧
    (∃ x, (connectTail runId latest env).getLast? = some (UIEvent.runFinished x)) := by
  unfold connectTail
  cases har : findActiveRun (threadBusy latest) env.activeRunsList with
  | some r =>
      exact joinAndProcessStream_spec r.run_id env.streamChunks env.streamFails
        env.finalState env.initManuallyEmittedState
  | none =>
      exact ⟨by simp [isRunStarted], by simp [isRunFinished], ⟨runId, rfl⟩⟩

/-- Whether the interrupt emission of connect would throw on the given
checkpoint: a circular interrupt value reaching JSON.stringify. -/
def interruptThrows (c : Checkpoint) : Bool :=
  match interruptValueOf c with
  | some iv =>
      match stringifyInterrupt iv with
      | .error _ => true
      | .ok _ => false
  | none => false

theorem getLast?_append_of_getLast? {α : Type} {l tail : List α} {y : α}
    (h : tail.getLast? = some y) : (l ++ tail).getLast? = some y := by
  rw [List.getLast?_append, h]
  rfl

theorem connectAfterSnapshot_spec (runId : String) (env : ConnectEnv)
    (c : Checkpoint) (cs : List Checkpoint)
    (hok : interruptThrows (latestOf c cs) = false) :
    ((connectAfterSnapshot runId env c cs).countP isRunStarted = 0) ∧
    ((connectAfterSnapshot runId env c cs).countP isRunFinished = 1) ∧
    (∃ x, (connectAfterSnapshot runId env c cs).getLast?
        = some (UIEvent.runFinished x)) := by
  have ht := connectTail_spec runId (latestOf c cs) env
  obtain ⟨x, hx⟩ := ht.2.2
  unfold connectAfterSnapshot
  simp only []
  cases hi : interruptValueOf (latestOf c cs) with
  | none =>
      refine ⟨?_, ?_, ⟨x, ?_⟩⟩
      · cases hv : (latestOf c cs).values <;>
          simp [List.countP_append, ht.1, isRunStarted]
      · cases hv : (latestOf c cs).values <;>
          simp [List.countP_append, ht.2.1, isRunFinished]
      · exact getLast?_append_of_getLast? hx
  | some iv =>
      cases hs : stringifyInterrupt iv with
      | error e => simp [interruptThrows, hi, hs] at hok
      | ok s =>
          refine ⟨?_, ?_, ⟨x, ?_⟩⟩
          · cases hv : (latestOf c cs).values <;>
              simp [hs, List.countP_append, ht.1, isRunStarted]
          · cases hv : (latestOf c cs).values <;>
              simp [hs, List.countP_append, ht.2.1, isRunFinished]
          · simp only [hs]
            exact getLast?_append_of_getLast? hx

/-- Whether a connect execution avoids the one uncaught throw point of
the hydration path (the interrupt serialization after the snapshot
events): when this holds no error fallback runs. -/
def connectFaultFree (env : ConnectEnv) : Bool :=
  match env.history with
  | none => true
  | some [] => true
  | some (c :: cs) => !(interruptThrows (latestOf c cs))

/-- C5 amended: in every connect execution in which the error fallback
does not run after events were already emitted (no uncaught throw),
exactly one RUN_STARTED is emitted and it is the first event, and
exactly one RUN_FINISHED is emitted and it terminates the sequence; when
the interrupt serialization throws after the snapshot was emitted, the
fallback appends a second RUN_STARTED, so the claim as stated fails. -/
theorem claim5_run_lifecycle_amended (limit : Int) (env : ConnectEnv)
    (hf : connectFaultFree env = true) :
    ((connect limit env).countP isRunStarted = 1) ∧
    ((connect limit env).countP isRunFinished = 1) ∧
    ((connect limit env).head?.map isRunStarted = some true) ∧
    ((connect limit env).getLast?.map isRunFinished = some true) := by
  rcases henv : env.history with _ | (_ | ⟨c, cs⟩)
  · unfold connect
    rw [henv]
    exact ⟨rfl, rfl, rfl, rfl⟩
  · unfold connect
    rw [henv]
    exact ⟨rfl, rfl, rfl, rfl⟩
  · unfold connectFaultFree at hf
    rw [henv] at hf
    simp only [Bool.not_eq_true'] at hf
    have hA := connectAfterSnapshot_spec
      (resolveRunId env.runsList env.fallbackRunId) env c cs hf
    obtain ⟨x, hx⟩ := hA.2.2
    unfold connect connectHydrate
    rw [henv]
    simp only []
    refine ⟨?_, ?_, ?_, ?_⟩
    · simp [List.countP_append, hA.1, isRunStarted, isRunFinished]
    · simp [List.countP_append, hA.2.1, isRunStarted, isRunFinished]
    · simp [isRunStarted]
    · rw [List.getLast?_append, hx]
      simp [isRunFinished]

theorem claim5_run_lifecycle_amended_witness :
    (connectFaultFree (ConnectEnv.mk (some [c1cpNew]) (.error ()) "hydration_f"
        "hydration_error_f" (.error ()) [] false (.error ()) none) = true) ∧
    (((connect 100 (ConnectEnv.mk (some [c1cpNew]) (.error ()) "hydration_f"
        "hydration_error_f" (.error ()) [] false (.error ()) none)).countP
          isRunStarted = 1) ∧
     ((connect 100 (ConnectEnv.mk (some [c1cpNew]) (.error ()) "hydration_f"
        "hydration_error_f" (.error ()) [] false (.error ()) none)).countP
          isRunFinished = 1) ∧
     ((connect 100 (ConnectEnv.mk (some [c1cpNew]) (.error ()) "hydration_f"
        "hydration_error_f" (.error ()) [] false (.error ()) none)).head?.map
          isRunStarted = some true) ∧
     ((connect 100 (ConnectEnv.mk (some [c1cpNew]) (.error ()) "hydration_f"
        "hydration_error_f" (.error ()) [] false (.error ()) none)).getLast?.map
          isRunFinished = some true)) :=
  ⟨rfl, claim5_run_lifecycle_amended 100 _ rfl⟩

/-- An interrupt value on which JSON.stringify throws. -/
def c5val : JsVal := { repr := "iv", circular := true }

/-- An interrupt carrying the circular value. -/
def c5interrupt : Interrupt := { value := some c5val }

/-- A task carrying the circular interrupt. -/
def c5task : CkTask := { interrupts := some [c5interrupt] }

/-- A checkpoint whose interrupt emission throws during serialization. -/
def c5cp : Checkpoint :=
  { values := some { messages := some [w1msg], raw := "V" },
    tasks := some [c5task] }

/-- A connect environment that reaches the error fallback after the
snapshot events were already emitted. -/
def c5env : ConnectEnv :=
  { history := some [c5cp], runsList := .ok [{ run_id := "R1", status := "success" }] }

/-- C5 counterexample: when the interrupt serialization throws after the
snapshot events, the error fallback emits a second RUN_STARTED, so a
RUN_STARTED occurs after other events and the sequence holds two of
them, refuting the claim as stated. -/
theorem claim5_run_started_counterexample :
    (connect 100 c5env).countP isRunStarted = 2 := by
  rfl

end LGH
